import Mathlib

/-!
Verification development for the AgentDB "ReasoningBank" episodic memory
service (scripts/init_agentdb.py, scripts/test_agentdb.py,
scripts/test_full_integration.py).

The SQLite layer (tables, foreign keys with ON DELETE CASCADE, blob
serialization of 384-dimensional float32 embeddings, IF NOT EXISTS schema
creation) is embedded from `scripts/init_agentdb.py` and the row operations
exercised by `scripts/test_agentdb.py`.  The bridge layer
(EmbeddingService.compute_cached, AgentDBBridge.pre_task_retrieve /
post_task_store / session_end_consolidate, the ErrorHandler circuit
breaker) lives in `.claude/hooks/*.py`, which is not part of the sources
here; those components are modelled from the specification, as indicated
on each definition.
-/

/-! ## Embedding blob serialization

`scripts/test_agentdb.py` stores an embedding as
`np.float32-array.tobytes()` (384 four-byte little-endian words) and reads
it back with `np.frombuffer(..., dtype=np.float32)`.  We model each float32
by its 32-bit pattern (a `Nat` below `2^32`); serialization writes the four
bytes little-endian, deserialization folds them back.
-/

/-- The four little-endian bytes of one 32-bit word (one float32). -/
def wordToLE (w : Nat) : List Nat :=
  [w % 256, w / 256 % 256, w / 65536 % 256, w / 16777216 % 256]

/-- `tobytes()`: concatenation of the little-endian bytes of each word. -/
def encodeBlob (v : List Nat) : List Nat :=
  (v.map wordToLE).flatten

/-- `np.frombuffer(..., dtype=np.float32)`: read the blob back four bytes at
a time, little-endian. -/
def decodeBlob : List Nat → List Nat
  | b0 :: b1 :: b2 :: b3 :: rest =>
      (b0 + 256 * b1 + 65536 * b2 + 16777216 * b3) :: decodeBlob rest
  | _ => []

/-! ## Real-vector layer

Embeddings are 384-dimensional real vectors
(`all-MiniLM-L6-v2` dimension, asserted throughout the tests).
-/

/-- A 384-dimensional embedding vector. -/
abbrev Vec384 := Fin 384 → ℝ

/-- Squared Euclidean norm `∑ v i ^ 2`. -/
def l2normSq (v : Vec384) : ℝ := ∑ i, v i ^ 2

/-- Dot product, as computed by `np.dot` in the similarity-search tests. -/
def dotProd (v w : Vec384) : ℝ := ∑ i, v i * w i

/-- Cosine similarity
`np.dot(a, b) / (np.linalg.norm(a) * np.linalg.norm(b))`, exactly the
formula of `test_agentdb.py::test_similarity_search`. -/
noncomputable def cosSim (v w : Vec384) : ℝ :=
  dotProd v w / (Real.sqrt (l2normSq v) * Real.sqrt (l2normSq w))

/-- L2 normalization of a raw embedding vector: divide by the Euclidean
norm. -/
noncomputable def normalizeVec (v : Vec384) : Vec384 :=
  fun i => v i / Real.sqrt (l2normSq v)

/-! ## SQLite row model

Rows of the tables of `scripts/init_agentdb.py::initialize_schema` that the
claims mention.  `domain` does not appear as a column of `episodes` in
`init_agentdb.py`; the bridge layer stores and queries a per-episode domain
(`SELECT e.id, e.task, e.domain ...` in
`test_full_integration.py::test_similarity_search`), so it is modelled here
as an extra field used by the bridge-level claims.
-/

/-- A row of the `episodes` table. -/
structure EpisodeRow where
  id : Nat
  ts : ℚ
  session_id : Option String
  task : String
  /-- Bridge-level domain of the episode (see the note above). -/
  domain : Option String
  input : Option String
  output : Option String
  critique : Option String
  reward : Option ℚ
  success : Option Int
  latency_ms : Option Int
  tokens_used : Option Int
  tags : Option String
  metadata : Option String
deriving DecidableEq, Repr

/-- A row of the `episode_embeddings` table.  The `embedding BLOB` column
holds the 384×float32 little-endian serialization of the vector (see
`encodeBlob`/`decodeBlob`); the row is modelled at the decoded vector
level. -/
structure EmbeddingRow where
  id : Nat
  episode_id : Nat
  embedding : Vec384
  embedding_model : String

/-- A row of the `memory_scores` table. -/
structure MemoryScoreRow where
  id : Nat
  episode_id : Nat
  recency_score : ℚ
  frequency_score : ℚ
  importance_score : ℚ
  composite_score : ℚ
  access_count : Nat
deriving DecidableEq, Repr

/-- A row of the `consolidated_memories` table.  `source_episode_ids` is a
plain TEXT column holding a serialized list of episode ids; it carries no
foreign key.  Only `consolidation_run_id` has one (ON DELETE SET NULL). -/
structure ConsolidatedMemoryRow where
  id : Nat
  summary : String
  source_episode_ids : List Nat
  consolidation_run_id : Option Nat
  importance_score : ℚ
deriving DecidableEq, Repr

/-- A row of the `consolidation_runs` table. -/
structure ConsolidationRunRow where
  id : Nat
  run_type : String
  episodes_processed : Nat
  memories_created : Nat
  compression_ratio : ℚ
deriving DecidableEq, Repr

/-- The persistent store: the tables of `initialize_schema` that the claims
mention (the remaining tables of the 25 are never referenced by them). -/
structure DB where
  episodes : List EpisodeRow
  episode_embeddings : List EmbeddingRow
  memory_scores : List MemoryScoreRow
  consolidated_memories : List ConsolidatedMemoryRow
  consolidation_runs : List ConsolidationRunRow

/-- The empty store, as produced by a fresh initialization. -/
def emptyDB : DB := ⟨[], [], [], [], []⟩

/-- `INSERT INTO episodes ...`. -/
def insert_episode (db : DB) (e : EpisodeRow) : DB :=
  { db with episodes := db.episodes ++ [e] }

/-- `INSERT INTO episode_embeddings ...`. -/
def insert_embedding (db : DB) (r : EmbeddingRow) : DB :=
  { db with episode_embeddings := db.episode_embeddings ++ [r] }

/-- `INSERT INTO memory_scores ...`. -/
def insert_memory_score (db : DB) (r : MemoryScoreRow) : DB :=
  { db with memory_scores := db.memory_scores ++ [r] }

/-- `INSERT INTO consolidated_memories ...`.  The schema places no foreign
key on `source_episode_ids`, so any id list is accepted. -/
def insert_consolidated_memory (db : DB) (m : ConsolidatedMemoryRow) : DB :=
  { db with consolidated_memories := db.consolidated_memories ++ [m] }

/-- `DELETE FROM episodes WHERE id = ?` with `PRAGMA foreign_keys = ON`.
The declared `ON DELETE CASCADE` foreign keys of `episode_embeddings` and
`memory_scores` delete the dependent rows; `consolidated_memories` has no
foreign key on its source episode ids and is untouched. -/
def delete_episode (db : DB) (eid : Nat) : DB :=
  { db with
    episodes := db.episodes.filter (fun e => decide (e.id ≠ eid)),
    episode_embeddings :=
      db.episode_embeddings.filter (fun r => decide (r.episode_id ≠ eid)),
    memory_scores :=
      db.memory_scores.filter (fun r => decide (r.episode_id ≠ eid)) }

/-! ## Schema creation model (`initialize_schema` / `create_indexes`)

Every `CREATE TABLE` and `CREATE INDEX` of `scripts/init_agentdb.py` uses
`IF NOT EXISTS`.  For the idempotence claim the store is modelled as named
tables with opaque row payloads plus a set of index names.
-/

/-- A database as seen by the schema-creation script: named tables with
their rows (payload left opaque) and named indexes. -/
structure RawDB where
  tables : List (String × List String)
  indexes : List String
deriving DecidableEq, Repr

/-- Whether a table of this name exists. -/
def hasTable (d : RawDB) (n : String) : Bool :=
  d.tables.any (fun p => p.1 == n)

/-- `CREATE TABLE IF NOT EXISTS n (...)`: no effect when the table exists,
otherwise a fresh empty table. -/
def createTableIfNotExists (d : RawDB) (n : String) : RawDB :=
  if hasTable d n then d else { d with tables := d.tables ++ [(n, [])] }

/-- `CREATE INDEX IF NOT EXISTS n ON ...`. -/
def createIndexIfNotExists (d : RawDB) (n : String) : RawDB :=
  if d.indexes.contains n then d else { d with indexes := d.indexes ++ [n] }

/-- The 25 tables created by `initialize_schema`, in source order. -/
def tableNames : List String :=
  ["episodes", "episode_embeddings", "skills", "skill_embeddings",
   "skill_links", "facts", "notes", "note_embeddings", "causal_edges",
   "causal_experiments", "causal_observations", "exp_nodes", "exp_edges",
   "exp_node_embeddings", "learning_experiences", "learning_sessions",
   "consolidated_memories", "consolidation_runs", "memory_scores",
   "memory_access_log", "provenance_sources", "justification_paths",
   "recall_certificates", "events", "learning_algorithms"]

/-- The 19 indexes created by `create_indexes`, in source order. -/
def indexNames : List String :=
  ["idx_episodes_ts", "idx_episodes_session", "idx_episodes_created",
   "idx_episode_emb_episode", "idx_skill_emb_skill", "idx_note_emb_note",
   "idx_exp_node_emb_node", "idx_skills_name", "idx_skill_links_episode",
   "idx_skill_links_skill", "idx_learning_exp_session",
   "idx_learning_sessions_algo", "idx_memory_scores_episode",
   "idx_memory_scores_composite", "idx_memory_access_episode",
   "idx_causal_edges_cause", "idx_causal_edges_effect", "idx_events_type",
   "idx_events_timestamp"]

/-- `initialize_schema`: run the 25 `CREATE TABLE IF NOT EXISTS`
statements in order. -/
def initialize_schema (d : RawDB) : RawDB :=
  tableNames.foldl createTableIfNotExists d

/-- `create_indexes`: run the 19 `CREATE INDEX IF NOT EXISTS` statements in
order. -/
def create_indexes (d : RawDB) : RawDB :=
  indexNames.foldl createIndexIfNotExists d

/-- The full initialization pass: `initialize_schema` then
`create_indexes`, as in `AgentDBInitializer.initialize`. -/
def initAll (d : RawDB) : RawDB :=
  create_indexes (initialize_schema d)

/-! ## Circuit breaker (ErrorHandler)

Modelled from the spec: `error_handler.py` (imported by
`test_full_integration.py`) is not among the sources; §4.5 of the spec
defines the three-state machine with failure threshold 5 and a cooldown,
and `test_full_integration.py::test_error_handling` fixes the observable
behavior (closed initially, blocking after 5 recorded failures).  Time is
modelled as a `Nat` tick supplied by the caller.
-/

/-- The three circuit-breaker states of §4.5. -/
inductive CBState
  | closed
  | opened
  | halfOpen
deriving DecidableEq, Repr

/-- The gating decision reported by `check()`. -/
inductive Decision
  | pass
  | block
deriving DecidableEq, Repr

/-- Modelled from the spec: process-wide circuit-breaker state
(`CircuitBreakerState` of §3), with its configured failure threshold and
cooldown duration. -/
structure CircuitBreaker where
  state : CBState
  failures : Nat
  openedAt : Nat
  threshold : Nat
  cooldown : Nat
deriving DecidableEq, Repr

/-- The breaker as created at process start: closed, zero failures. -/
def CircuitBreaker.init (threshold cooldown : Nat) : CircuitBreaker :=
  ⟨CBState.closed, 0, 0, threshold, cooldown⟩

/-- Modelled from the spec: `record_failure(error, context)` increments the
counter and may trigger `closed → open`; a failure of the half-open probe
reopens the breaker and restarts the cooldown (§4.5). -/
def CircuitBreaker.record_failure (t : Nat) (cb : CircuitBreaker) : CircuitBreaker :=
  match cb.state with
  | CBState.closed =>
      let f := cb.failures + 1
      if cb.threshold ≤ f then
        { cb with state := CBState.opened, failures := f, openedAt := t }
      else
        { cb with failures := f }
  | CBState.opened => cb
  | CBState.halfOpen => { cb with state := CBState.opened, openedAt := t }

/-- Modelled from the spec: a success of the half-open probe transitions to
`closed` and resets the counter; a success while closed resets the rolling
consecutive-failure counter (§4.5). -/
def CircuitBreaker.record_success (cb : CircuitBreaker) : CircuitBreaker :=
  match cb.state with
  | CBState.halfOpen => { cb with state := CBState.closed, failures := 0 }
  | _ => { cb with failures := 0 }

/-- Modelled from the spec: `check()` reports the current gating decision
without side effects beyond the time-driven `open → half-open` transition;
once half-open, the single probe is allowed through (§4.5). -/
def CircuitBreaker.check (t : Nat) (cb : CircuitBreaker) : Decision × CircuitBreaker :=
  match cb.state with
  | CBState.closed => (Decision.pass, cb)
  | CBState.opened =>
      if cb.openedAt + cb.cooldown ≤ t then
        (Decision.pass, { cb with state := CBState.halfOpen })
      else
        (Decision.block, cb)
  | CBState.halfOpen => (Decision.pass, cb)

/-- Five consecutive recorded failures on a freshly created breaker with
threshold 5, all at time `t0` (the scenario of
`test_full_integration.py::test_error_handling`). -/
def failFive (t0 cooldown : Nat) : CircuitBreaker :=
  CircuitBreaker.record_failure t0 (CircuitBreaker.record_failure t0
    (CircuitBreaker.record_failure t0 (CircuitBreaker.record_failure t0
      (CircuitBreaker.record_failure t0 (CircuitBreaker.init 5 cooldown)))))

/-! ## EmbeddingService

Modelled from the spec: `embedding_service.py` is not among the sources.
§4.1 fixes the contract of `compute_cached`: deterministic text→vector,
exact-match cache returning a value observably equal to the prior
computation, L2-normalized output, `EmbeddingUnavailable` (here `none`)
when the underlying model fails, with nothing cached in that case, and
hit/miss statistics.
-/

/-- Modelled from the spec: the embedding service.  `baseEmbed` is the
underlying model computation (`none` = model unavailable); `cache` is the
exact-match text→vector mapping; `hits`/`misses` feed `get_stats()`. -/
structure EmbeddingService where
  baseEmbed : String → Option Vec384
  cache : List (String × Vec384)
  hits : Nat
  misses : Nat

/-- Exact-match cache lookup. -/
def lookupCache (cache : List (String × Vec384)) (t : String) : Option Vec384 :=
  (cache.find? (fun p => p.1 == t)).map Prod.snd

/-- Modelled from the spec: `compute_cached(text)`.  A hit returns the
previously computed vector unchanged; a miss runs the underlying model,
L2-normalizes, caches and returns the result; a failing model computation
(or a degenerate zero vector, which cannot be normalized) returns `none`
and caches nothing. -/
noncomputable def compute_cached (svc : EmbeddingService) (t : String) :
    Option (Vec384 × EmbeddingService) :=
  match lookupCache svc.cache t with
  | some v => some (v, { svc with hits := svc.hits + 1 })
  | none =>
      match svc.baseEmbed t with
      | none => none
      | some w =>
          if l2normSq w = 0 then none
          else
            some (normalizeVec w,
              { svc with cache := (t, normalizeVec w) :: svc.cache,
                         misses := svc.misses + 1 })

/-- Cache well-formedness: every cached vector is L2-normalized (the
invariant of §3 on `EpisodeEmbedding` vectors, maintained by
`compute_cached`). -/
def WFcache (svc : EmbeddingService) : Prop :=
  ∀ p ∈ svc.cache, Real.sqrt (l2normSq p.2) = 1

/-! ## Confidence update (StorageEngine)

Modelled from the spec: §4.3 fixes the exponential-moving-average rule
`c' = c + α·(reward_signal - c)` with `reward_signal` the reward (default
0.5 when absent) for success outcomes and its complement for failure
outcomes, initialization from the first observation when no prior exists,
and `confidence_delta = c' - c`.
-/

/-- Modelled from the spec: the per-call reward signal.  `outcome = true`
is success.  The reward defaults to 0.5 when absent. -/
def reward_signal (outcome : Bool) (reward : Option ℚ) : ℚ :=
  let r := reward.getD (1/2)
  if outcome then r else 1 - r

/-- Modelled from the spec: the confidence update.  Returns
`(new confidence, confidence_delta)`.  With a prior `c` the EMA rule
applies; with no prior the confidence is initialized from the first
observation (no blending) and the delta is measured from 0. -/
def update_confidence (alpha : ℚ) (prior : Option ℚ) (outcome : Bool)
    (reward : Option ℚ) : ℚ × ℚ :=
  let rs := reward_signal outcome reward
  match prior with
  | none => (rs, rs)
  | some c => (c + alpha * (rs - c), alpha * (rs - c))

/-- Domain-keyed confidence lookup (the domain/strategy confidence
aggregate of §6). -/
def lookupConf (l : List (String × ℚ)) (d : String) : Option ℚ :=
  (l.find? (fun p => p.1 == d)).map Prod.snd

/-- Store the updated confidence for a domain. -/
def setConf (l : List (String × ℚ)) (d : String) (c : ℚ) : List (String × ℚ) :=
  (d, c) :: l.filter (fun p => p.1 != d)

/-! ## The AgentDB bridge

Modelled from the spec: `agentdb_bridge.py` is not among the sources.
§4.2–§4.4 and §6 fix the three operations `pre_task_retrieve`,
`post_task_store` and `session_end_consolidate` over the shared store,
embedding cache, confidence aggregate and circuit breaker.
-/

/-- The trajectory dict passed to `post_task_store`
(`test_full_integration.py::test_post_task_storage`). -/
structure Trajectory where
  description : String
  domain : String
  session_id : String
  input : String
  output : String
  strategy : String
deriving DecidableEq, Repr

/-- The metrics dict passed to `post_task_store`. -/
structure StoreMetrics where
  duration_ms : Nat
  tokens_used : Nat
  quality_score : ℚ
deriving DecidableEq, Repr

/-- `StoreResult{episode_id, confidence_delta}` (§4.3). -/
structure StoreResult where
  episode_id : Nat
  confidence_delta : ℚ
deriving DecidableEq, Repr

/-- The error taxonomy of §7 relevant to `post_task_store`. -/
inductive StoreError
  | StoreUnavailable
  | EmbeddingUnavailable
deriving DecidableEq, Repr

/-- The transient read-model returned by retrieval (§3). -/
structure LearnedStrategy where
  strategy : String
  domain : String
  confidence : ℚ
  supporting_episode_ids : List Nat
  similarity : ℝ

/-- Modelled from the spec: the bridge's process state — the shared store,
the embedding cache, the persisted domain confidence aggregate, the
process-wide breaker, the EMA learning rate and the similarity acceptance
threshold (§6 configuration surface). -/
structure Bridge where
  db : DB
  svc : EmbeddingService
  confidence : List (String × ℚ)
  breaker : CircuitBreaker
  alpha : ℚ
  sim_threshold : ℝ

/-- Next AUTOINCREMENT id for `episodes`. -/
def freshEpisodeId (db : DB) : Nat :=
  db.episodes.foldr (fun e m => max e.id m) 0 + 1

/-- Next AUTOINCREMENT id for `episode_embeddings`. -/
def freshEmbeddingId (db : DB) : Nat :=
  db.episode_embeddings.foldr (fun r m => max r.id m) 0 + 1

/-- Next AUTOINCREMENT id for `consolidated_memories`. -/
def freshMemoryId (db : DB) : Nat :=
  db.consolidated_memories.foldr (fun r m => max r.id m) 0 + 1

/-- Next AUTOINCREMENT id for `consolidation_runs`. -/
def freshRunId (db : DB) : Nat :=
  db.consolidation_runs.foldr (fun r m => max r.id m) 0 + 1

/-- The episode row written by `post_task_store` for a trajectory. -/
def episodeOfTrajectory (t : Nat) (eid : Nat) (traj : Trajectory)
    (outcome : Bool) (reward : Option ℚ) (metrics : StoreMetrics) : EpisodeRow :=
  { id := eid, ts := t, session_id := some traj.session_id,
    task := traj.description, domain := some traj.domain,
    input := some traj.input, output := some traj.output, critique := none,
    reward := reward, success := some (if outcome then 1 else 0),
    latency_ms := some metrics.duration_ms,
    tokens_used := some metrics.tokens_used,
    tags := none, metadata := none }

/-- Modelled from the spec: `post_task_store(task_id, trajectory, outcome,
metrics)` (§4.3, §6).  The breaker gates the write (`StoreUnavailable` when
open); the embedding is computed before the transaction opens
(`EmbeddingUnavailable` aborts with no store mutation); otherwise the
episode row and its embedding row commit together and the domain confidence
is updated by the EMA rule. -/
noncomputable def post_task_store (t : Nat) (b : Bridge) (task_id : String)
    (traj : Trajectory) (outcome : Bool) (reward : Option ℚ)
    (metrics : StoreMetrics) : Except StoreError StoreResult × Bridge :=
  match CircuitBreaker.check t b.breaker with
  | (Decision.block, br') =>
      (Except.error StoreError.StoreUnavailable, { b with breaker := br' })
  | (Decision.pass, br') =>
      match compute_cached b.svc traj.description with
      | none =>
          (Except.error StoreError.EmbeddingUnavailable,
           { b with breaker := CircuitBreaker.record_failure t br' })
      | some (v, svc') =>
          let eid := freshEpisodeId b.db
          let prior := lookupConf b.confidence traj.domain
          let upd := update_confidence b.alpha prior outcome reward
          let db1 := insert_episode b.db
            (episodeOfTrajectory t eid traj outcome reward metrics)
          let db2 := insert_embedding db1
            { id := freshEmbeddingId b.db, episode_id := eid, embedding := v,
              embedding_model := "all-MiniLM-L6-v2" }
          (Except.ok { episode_id := eid, confidence_delta := upd.2 },
           { b with db := db2, svc := svc',
                    confidence := setConf b.confidence traj.domain upd.1,
                    breaker := CircuitBreaker.record_success br' })

/-- Candidate episodes joined with their embeddings. -/
def withEmbeddings (db : DB) : List (EpisodeRow × Vec384) :=
  db.episode_embeddings.filterMap (fun r =>
    (db.episodes.find? (fun e => e.id == r.episode_id)).map (fun e => (e, r.embedding)))

/-- Modelled from the spec: the candidate set of §4.2 — episodes whose
domain matches `domain_filter`, or all episodes when the filter is
absent. -/
def candidateRows (db : DB) (domain_filter : Option String) :
    List (EpisodeRow × Vec384) :=
  match domain_filter with
  | none => withEmbeddings db
  | some d => (withEmbeddings db).filter (fun p => decide (p.1.domain = some d))

/-- The best candidate by cosine similarity (brute-force scan, first listed
wins ties). -/
noncomputable def bestMatch (q : Vec384) :
    List (EpisodeRow × Vec384) → Option (EpisodeRow × ℝ)
  | [] => none
  | (e, v) :: rest =>
      match bestMatch q rest with
      | none => some (e, cosSim q v)
      | some (e', s') =>
          if s' < cosSim q v then some (e, cosSim q v) else some (e', s')

/-- Modelled from the spec: `pre_task_retrieve(task_description, domain,
k)` (§4.2, §6).  Breaker-gated pure read: an open breaker, a failing
embedding computation, an empty candidate set or a best similarity below
the acceptance threshold all return nothing; otherwise a `LearnedStrategy`
is synthesized from the top match, its confidence drawn from the matched
episode's domain confidence. -/
noncomputable def pre_task_retrieve (t : Nat) (b : Bridge) (task_desc : String)
    (domain_filter : Option String) (k : Nat) :
    Option LearnedStrategy × Bridge :=
  match CircuitBreaker.check t b.breaker with
  | (Decision.block, br') => (none, { b with breaker := br' })
  | (Decision.pass, br') =>
      match compute_cached b.svc task_desc with
      | none => (none, { b with breaker := br' })
      | some (q, svc') =>
          match bestMatch q (candidateRows b.db domain_filter) with
          | none => (none, { b with svc := svc', breaker := br' })
          | some (e, s) =>
              if s < b.sim_threshold then
                (none, { b with svc := svc', breaker := br' })
              else
                (some { strategy := (e.output).getD e.task,
                        domain := (e.domain).getD "",
                        confidence :=
                          (lookupConf b.confidence ((e.domain).getD "")).getD (1/2),
                        supporting_episode_ids := [e.id],
                        similarity := s },
                 { b with svc := svc', breaker := br' })

/-- `ConsolidationReport{status, session_id, episodes_processed,
memories_created, compression_ratio}` (§4.4). -/
structure ConsolidationReport where
  status : String
  session_id : String
  episodes_processed : Nat
  memories_created : Nat
  compression_ratio : ℚ
deriving DecidableEq, Repr

/-- The episodes of one session. -/
def sessionEpisodes (db : DB) (sid : String) : List EpisodeRow :=
  db.episodes.filter (fun e => decide (e.session_id = some sid))

/-- The distinct domains among a list of episodes (the grouping key of
§4.4). -/
def sessionDomains (es : List EpisodeRow) : List (Option String) :=
  (es.map (fun e => e.domain)).dedup

/-- One consolidated memory per domain group: the summary row referencing
the originating episode ids (§3, §4.4). -/
def mkMemory (mid : Nat) (runId : Nat) (d : Option String)
    (es : List EpisodeRow) : ConsolidatedMemoryRow :=
  { id := mid, summary := "session summary",
    source_episode_ids :=
      (es.filter (fun e => decide (e.domain = d))).map (fun e => e.id),
    consolidation_run_id := some runId, importance_score := 1/2 }

/-- Modelled from the spec: `session_end_consolidate(session_id)` (§4.4,
§6).  Reads the session's episodes, produces one `ConsolidatedMemory` per
domain group, appends a `ConsolidationRun` record, and reports
`compression_ratio = memories_created / episodes_processed` (1.0 when no
episodes existed). -/
def session_end_consolidate (b : Bridge) (sid : String) :
    ConsolidationReport × Bridge :=
  let es := sessionEpisodes b.db sid
  let groups := sessionDomains es
  let runId := freshRunId b.db
  let mems := (List.range groups.length).zip groups |>.map
    (fun p => mkMemory (freshMemoryId b.db + p.1) runId p.2 es)
  let n := es.length
  let m := mems.length
  let ratio : ℚ := if n = 0 then 1 else (m : ℚ) / (n : ℚ)
  let run : ConsolidationRunRow :=
    { id := runId, run_type := "session_end", episodes_processed := n,
      memories_created := m, compression_ratio := ratio }
  ({ status := "success", session_id := sid, episodes_processed := n,
     memories_created := m, compression_ratio := ratio },
   { b with db :=
      { b.db with
        consolidated_memories := b.db.consolidated_memories ++ mems,
        consolidation_runs := b.db.consolidation_runs ++ [run] } })

/-! ## Concrete fixtures

Small concrete instances used to evaluate the definitions on explicit
inputs, mirroring the data of the two test scripts.
-/

/-- The first standard basis vector: a concrete unit-norm embedding. -/
def e0 : Vec384 := fun i => if i = 0 then 1 else 0

/-- An embedding service whose underlying model always returns `e0`, with
an empty cache (a fresh `EmbeddingService()`). -/
def svc0 : EmbeddingService :=
  { baseEmbed := fun _ => some e0, cache := [], hits := 0, misses := 0 }

/-- `svc0` after one miss on `t`. -/
def svcA (t : String) : EmbeddingService :=
  { svc0 with cache := [(t, e0)], misses := 1 }

/-- The trajectory of `test_full_integration.py::test_post_task_storage`. -/
def traj1 : Trajectory :=
  { description := "Optimize API endpoint performance",
    domain := "api-optimization", session_id := "test-session-001",
    input := "Slow API response times",
    output := "Added caching and indexing",
    strategy := "Profile, identify bottlenecks, apply targeted fixes" }

/-- The metrics dict of the same test. -/
def metrics1 : StoreMetrics :=
  { duration_ms := 1500, tokens_used := 250, quality_score := 85/100 }

/-- A bridge with prior domain confidence 1/2, used for a successful
store. -/
def bridge7 : Bridge :=
  { db := emptyDB, svc := svc0, confidence := [("api-optimization", 1/2)],
    breaker := CircuitBreaker.init 5 10, alpha := 1/10, sim_threshold := 0 }

/-- A bridge with a low prior domain confidence 1/10, exhibiting a positive
confidence delta on a failure outcome. -/
def bridgeF : Bridge :=
  { db := emptyDB, svc := svc0, confidence := [("api-optimization", 1/10)],
    breaker := CircuitBreaker.init 5 10, alpha := 1/10, sim_threshold := 0 }

/-- A concrete stored episode (domain `api-optimization`, session `s`). -/
def ep9 : EpisodeRow :=
  { id := 1, ts := 0, session_id := some "s", task := "Task 0",
    domain := some "api-optimization", input := some "input 0",
    output := some "output 0", critique := none, reward := some (9/10),
    success := some 1, latency_ms := some 150, tokens_used := some 42,
    tags := none, metadata := none }

/-- The embedding row of `ep9`. -/
def emb9 : EmbeddingRow :=
  { id := 1, episode_id := 1, embedding := e0,
    embedding_model := "all-MiniLM-L6-v2" }

/-- A store holding `ep9` with its embedding. -/
def db9 : DB :=
  insert_embedding (insert_episode emptyDB ep9) emb9

/-- A bridge over `db9` with acceptance threshold 1/2, used for a concrete
retrieval. -/
noncomputable def bridge9 : Bridge :=
  { db := db9, svc := svc0, confidence := [("api-optimization", 3/4)],
    breaker := CircuitBreaker.init 5 10, alpha := 1/10,
    sim_threshold := 1/2 }

/-- The memory-score row of `test_agentdb.py::test_foreign_key_constraints`
(composite score 0.75). -/
def ms4 : MemoryScoreRow :=
  { id := 1, episode_id := 1, recency_score := 0, frequency_score := 0,
    importance_score := 0, composite_score := 3/4, access_count := 0 }

/-- The store of the foreign-key test: one episode with an embedding row
and a memory-score row. -/
def db4 : DB :=
  insert_memory_score (insert_embedding (insert_episode emptyDB ep9) emb9) ms4

/-- A consolidated memory whose `source_episode_ids` names episode 1. -/
def cm5 : ConsolidatedMemoryRow :=
  { id := 1, summary := "m", source_episode_ids := [1],
    consolidation_run_id := none, importance_score := 1/2 }

/-- A reachable store state: insert episode 1, insert a consolidated
memory referencing it (the schema places no foreign key on
`source_episode_ids`), then delete episode 1. -/
def db5 : DB :=
  delete_episode (insert_consolidated_memory (insert_episode emptyDB ep9) cm5) 1

/-- A second episode in session `s` with the same domain as `ep9`. -/
def ep8 : EpisodeRow :=
  { ep9 with id := 2, task := "Task 1", input := some "input 1",
             output := some "output 1" }

/-- A bridge whose store holds two session-`s` episodes of one domain. -/
def bridge8 : Bridge :=
  { db := insert_episode (insert_episode emptyDB ep9) ep8, svc := svc0,
    confidence := [], breaker := CircuitBreaker.init 5 10, alpha := 1/10,
    sim_threshold := 0 }

/-- A raw database already holding an `episodes` table with one row. -/
def rawW : RawDB := { tables := [("episodes", ["row1"])], indexes := [] }

/-- The strategy returned by a concrete retrieval over `bridge9`. -/
noncomputable def strat9 : LearnedStrategy :=
  { strategy := "output 0", domain := "api-optimization", confidence := 3/4,
    supporting_episode_ids := [1], similarity := cosSim e0 e0 }

theorem decodeBlob_word (w : Nat) (hw : w < 4294967296) (rest : List Nat) :
    decodeBlob (wordToLE w ++ rest) = w :: decodeBlob rest := by
  simp only [wordToLE, List.cons_append, List.nil_append, decodeBlob]
  congr 1
  omega

theorem decodeBlob_encodeBlob (v : List Nat) (h : ∀ x ∈ v, x < 4294967296) :
    decodeBlob (encodeBlob v) = v := by
  induction v with
  | nil => rfl
  | cons a l ih =>
      have ha : a < 4294967296 := h a (List.mem_cons_self a l)
      have hl : ∀ x ∈ l, x < 4294967296 := fun x hx => h x (List.mem_cons_of_mem a hx)
      have : encodeBlob (a :: l) = wordToLE a ++ encodeBlob l := by
        simp [encodeBlob]
      rw [this, decodeBlob_word a ha, ih hl]

/-! ## Vector lemmas -/

theorem l2normSq_nonneg (v : Vec384) : 0 ≤ l2normSq v :=
  Finset.sum_nonneg fun i _ => sq_nonneg (v i)

theorem dotProd_self (v : Vec384) : dotProd v v = l2normSq v := by
  simp [dotProd, l2normSq, sq]

theorem l2normSq_normalizeVec (v : Vec384) (h : l2normSq v ≠ 0) :
    l2normSq (normalizeVec v) = 1 := by
  unfold l2normSq normalizeVec
  simp only [div_pow]
  rw [← Finset.sum_div, Real.sq_sqrt (l2normSq_nonneg v)]
  exact div_self h

theorem sqrt_l2normSq_normalizeVec (v : Vec384) (h : l2normSq v ≠ 0) :
    Real.sqrt (l2normSq (normalizeVec v)) = 1 := by
  rw [l2normSq_normalizeVec v h, Real.sqrt_one]

theorem cosSim_self (v : Vec384) (h : l2normSq v ≠ 0) : cosSim v v = 1 := by
  unfold cosSim
  rw [dotProd_self, Real.mul_self_sqrt (l2normSq_nonneg v)]
  exact div_self h

theorem cosSim_le_one (v w : Vec384) (hv : l2normSq v ≠ 0) : cosSim v w ≤ 1 := by
  by_cases hw : l2normSq w = 0
  · unfold cosSim
    rw [hw, Real.sqrt_zero, mul_zero, div_zero]
    exact zero_le_one
  · have h1 : 0 < Real.sqrt (l2normSq v) :=
      Real.sqrt_pos.mpr (lt_of_le_of_ne (l2normSq_nonneg v) (Ne.symm hv))
    have h2 : 0 < Real.sqrt (l2normSq w) :=
      Real.sqrt_pos.mpr (lt_of_le_of_ne (l2normSq_nonneg w) (Ne.symm hw))
    unfold cosSim
    rw [div_le_one (mul_pos h1 h2)]
    simpa [dotProd, l2normSq] using Real.sum_mul_le_sqrt_mul_sqrt Finset.univ v w

theorem l2normSq_e0 : l2normSq e0 = 1 := by
  unfold l2normSq e0
  rw [Finset.sum_eq_single (0 : Fin 384)]
  · simp
  · intro b _ hb
    simp [hb]
  · intro h
    exact absurd (Finset.mem_univ _) h

theorem l2normSq_e0_ne_zero : l2normSq e0 ≠ 0 := by
  rw [l2normSq_e0]
  exact one_ne_zero

theorem normalizeVec_e0 : normalizeVec e0 = e0 := by
  funext i
  unfold normalizeVec
  rw [l2normSq_e0, Real.sqrt_one, div_one]

/-! ## EmbeddingService lemmas -/

theorem compute_cached_svc0 (txt : String) :
    compute_cached svc0 txt = some (e0, svcA txt) := by
  simp [compute_cached, svc0, svcA, lookupCache, l2normSq_e0_ne_zero,
    normalizeVec_e0]

/-- C2: for every text `t`, two calls to `embed(t)` (`compute_cached`)
return bit-identical 384-dimensional vectors (the second call is a cache
hit returning the stored vector), and the returned vector is
L2-normalized: its Euclidean norm equals 1. -/
theorem embed_deterministic_normalized (svc : EmbeddingService) (t : String)
    (v1 : Vec384) (s1 : EmbeddingService) (hwf : WFcache svc)
    (h1 : compute_cached svc t = some (v1, s1)) :
    compute_cached s1 t = some (v1, { s1 with hits := s1.hits + 1 }) ∧
    Real.sqrt (l2normSq v1) = 1 := by
  cases hl : lookupCache svc.cache t with
  | some v =>
      simp only [compute_cached, hl, Option.some.injEq, Prod.mk.injEq] at h1
      obtain ⟨rfl, rfl⟩ := h1
      constructor
      · simp [compute_cached, hl]
      · obtain ⟨p, hpfind⟩ :
            ∃ p, svc.cache.find? (fun p => p.1 == t) = some p := by
          unfold lookupCache at hl
          cases hfind : svc.cache.find? (fun p => p.1 == t) with
          | none => rw [hfind] at hl; simp at hl
          | some p => exact ⟨p, rfl⟩
        have hmem : p ∈ svc.cache := List.mem_of_find?_eq_some hpfind
        have hv : v = p.2 := by
          unfold lookupCache at hl
          rw [hpfind] at hl
          simp at hl
          exact hl.symm
        rw [hv]
        exact hwf p hmem
  | none =>
      cases hb : svc.baseEmbed t with
      | none => simp [compute_cached, hl, hb] at h1
      | some w =>
          by_cases hz : l2normSq w = 0
          · simp [compute_cached, hl, hb, hz] at h1
          · simp only [compute_cached, hl, hb, if_neg hz, Option.some.injEq,
              Prod.mk.injEq] at h1
            obtain ⟨rfl, rfl⟩ := h1
            constructor
            · simp [compute_cached, lookupCache]
            · exact sqrt_l2normSq_normalizeVec w hz

/-- Witness for C2 at a concrete service and text. -/
theorem embed_deterministic_normalized_witness :
    WFcache svc0 ∧
    compute_cached svc0 "Build a REST API with authentication" =
      some (e0, svcA "Build a REST API with authentication") ∧
    compute_cached (svcA "Build a REST API with authentication")
        "Build a REST API with authentication" =
      some (e0, { svcA "Build a REST API with authentication" with
                    hits := (svcA "Build a REST API with authentication").hits + 1 }) ∧
    Real.sqrt (l2normSq e0) = 1 := by
  have hwf : WFcache svc0 := by
    intro p hp
    simp [svc0] at hp
  have h1 := compute_cached_svc0 "Build a REST API with authentication"
  have h := embed_deterministic_normalized svc0
    "Build a REST API with authentication" e0
    (svcA "Build a REST API with authentication") hwf h1
  exact ⟨hwf, h1, h.1, h.2⟩

/-- C3: round-trip through the store preserves embeddings — the 384-word
float32 blob decodes back to the stored bit patterns — and the cosine
similarity between the freshly computed embedding of the same text (equal
to the stored vector, by determinism of `embed`) and the stored vector is
1 > 0.99, ranking at least as high as every other candidate. -/
theorem roundtrip_and_self_similarity (blob : List Nat)
    (hlen : blob.length = 384) (hb : ∀ x ∈ blob, x < 4294967296)
    (q : Vec384) (hq : l2normSq q ≠ 0) :
    decodeBlob (encodeBlob blob) = blob ∧
    cosSim q q = 1 ∧ (99 : ℝ)/100 < cosSim q q ∧
    ∀ c : Vec384, cosSim q c ≤ cosSim q q := by
  refine ⟨decodeBlob_encodeBlob blob hb, cosSim_self q hq, ?_, ?_⟩
  · rw [cosSim_self q hq]
    norm_num
  · intro c
    rw [cosSim_self q hq]
    exact cosSim_le_one q c hq

/-- Witness for C3 at a concrete 384-word blob and the unit vector `e0`. -/
theorem roundtrip_and_self_similarity_witness :
    (List.replicate 384 (0 : Nat)).length = 384 ∧
    decodeBlob (encodeBlob (List.replicate 384 (0 : Nat))) =
      List.replicate 384 (0 : Nat) ∧
    cosSim e0 e0 = 1 := by
  have hlen : (List.replicate 384 (0 : Nat)).length = 384 :=
    List.length_replicate 384 0
  have hb : ∀ x ∈ List.replicate 384 (0 : Nat), x < 4294967296 := by
    intro x hx
    rw [List.eq_of_mem_replicate hx]
    norm_num
  have h := roundtrip_and_self_similarity (List.replicate 384 0) hlen hb e0
    l2normSq_e0_ne_zero
  exact ⟨hlen, h.1, h.2.1⟩

/-! ## Circuit breaker -/

/-- C6: starting closed, the breaker blocks after 5 consecutive recorded
failures; once the cooldown has elapsed, `check` lets the half-open probe
through, and after that probe succeeds the breaker is closed again with its
failure counter reset and reports passing. -/
theorem circuit_breaker_five_failures (cd t0 t1 : Nat) (hcd : 0 < cd)
    (ht : t0 + cd ≤ t1) :
    (CircuitBreaker.check t0 (failFive t0 cd)).1 = Decision.block ∧
    (CircuitBreaker.check t1 (failFive t0 cd)).1 = Decision.pass ∧
    (CircuitBreaker.record_success
      (CircuitBreaker.check t1 (failFive t0 cd)).2).state = CBState.closed ∧
    (CircuitBreaker.record_success
      (CircuitBreaker.check t1 (failFive t0 cd)).2).failures = 0 ∧
    (CircuitBreaker.check t1 (CircuitBreaker.record_success
      (CircuitBreaker.check t1 (failFive t0 cd)).2)).1 = Decision.pass := by
  have h5 : failFive t0 cd =
      ⟨CBState.opened, 5, t0, 5, cd⟩ := rfl
  rw [h5]
  have hno : ¬ (t0 + cd ≤ t0) := by omega
  refine ⟨?_, ?_, ?_, ?_, ?_⟩
  · simp only [CircuitBreaker.check]
    rw [if_neg hno]
  · simp only [CircuitBreaker.check]
    rw [if_pos ht]
  · simp only [CircuitBreaker.check]
    rw [if_pos ht]
    simp [CircuitBreaker.record_success]
  · simp only [CircuitBreaker.check]
    rw [if_pos ht]
    simp [CircuitBreaker.record_success]
  · simp only [CircuitBreaker.check]
    rw [if_pos ht]
    simp [CircuitBreaker.record_success, CircuitBreaker.check]

/-- Witness for C6 with cooldown 10, failures at time 0, probe at
time 10. -/
theorem circuit_breaker_five_failures_witness :
    0 < 10 ∧ 0 + 10 ≤ 10 ∧
    (CircuitBreaker.check 0 (failFive 0 10)).1 = Decision.block ∧
    (CircuitBreaker.check 10 (failFive 0 10)).1 = Decision.pass ∧
    (CircuitBreaker.record_success
      (CircuitBreaker.check 10 (failFive 0 10)).2).failures = 0 := by
  have h := circuit_breaker_five_failures 10 0 10 (by norm_num) (by norm_num)
  exact ⟨by norm_num, by norm_num, h.1, h.2.1, h.2.2.2.1⟩

/-! ## Confidence update through `post_task_store` -/

/-- Evaluation of a successful `post_task_store` call: with a closed
breaker and a succeeding embedding computation, the call commits the
episode row together with its embedding row and returns the EMA
confidence delta. -/
theorem post_task_store_ok (t : Nat) (b : Bridge) (tid : String)
    (traj : Trajectory) (outcome : Bool) (reward : Option ℚ)
    (metrics : StoreMetrics) (v : Vec384) (svc' : EmbeddingService)
    (hc : b.breaker.state = CBState.closed)
    (he : compute_cached b.svc traj.description = some (v, svc')) :
    post_task_store t b tid traj outcome reward metrics =
      (Except.ok
        { episode_id := freshEpisodeId b.db,
          confidence_delta :=
            (update_confidence b.alpha (lookupConf b.confidence traj.domain)
              outcome reward).2 },
       { b with
         db := insert_embedding
           (insert_episode b.db (episodeOfTrajectory t (freshEpisodeId b.db)
             traj outcome reward metrics))
           { id := freshEmbeddingId b.db,
             episode_id := freshEpisodeId b.db,
             embedding := v,
             embedding_model := "all-MiniLM-L6-v2" },
         svc := svc',
         confidence := setConf b.confidence traj.domain
           (update_confidence b.alpha (lookupConf b.confidence traj.domain)
             outcome reward).1,
         breaker := CircuitBreaker.record_success b.breaker }) := by
  have hch : CircuitBreaker.check t b.breaker = (Decision.pass, b.breaker) := by
    unfold CircuitBreaker.check
    rw [hc]
  simp only [post_task_store, hch, he]

/-- C1 (amended): for a `post_task_store` call over an existing prior
domain confidence `c` with a positive learning rate, a success outcome
whose reward signal exceeds `c` yields a strictly positive
`confidence_delta`, and a failure outcome whose reward signal (the
complement of the reward) does not exceed `c` yields a non-positive
`confidence_delta`. -/
theorem post_task_store_confidence_delta (t : Nat) (b : Bridge)
    (tid : String) (traj : Trajectory) (outcome : Bool) (reward : Option ℚ)
    (metrics : StoreMetrics) (c : ℚ) (r : StoreResult) (b' : Bridge)
    (halpha : 0 < b.alpha)
    (hprior : lookupConf b.confidence traj.domain = some c)
    (hok : post_task_store t b tid traj outcome reward metrics =
      (Except.ok r, b')) :
    (outcome = true → c < reward_signal true reward →
      0 < r.confidence_delta) ∧
    (outcome = false → reward_signal false reward ≤ c →
      r.confidence_delta ≤ 0) := by
  have hdelta : r.confidence_delta =
      b.alpha * (reward_signal outcome reward - c) := by
    rcases hch : CircuitBreaker.check t b.breaker with ⟨d, br'⟩
    cases d with
    | block => simp [post_task_store, hch] at hok
    | pass =>
        cases hcc : compute_cached b.svc traj.description with
        | none => simp [post_task_store, hch, hcc] at hok
        | some p =>
            rcases p with ⟨v, svc'⟩
            simp only [post_task_store, hch, hcc, hprior, update_confidence,
              Prod.mk.injEq, Except.ok.injEq] at hok
            rw [← hok.1]
  constructor
  · intro ho hrs
    rw [hdelta, ho]
    have : 0 < reward_signal true reward - c := by linarith
    exact mul_pos halpha this
  · intro ho hrs
    rw [hdelta, ho]
    have h0 : reward_signal false reward - c ≤ 0 := by linarith
    nlinarith [halpha, h0]

/-- Witness for C1 (amended): a concrete successful store over prior
confidence 1/2 with reward 9/10 returns `confidence_delta = 1/25 > 0`. -/
theorem post_task_store_confidence_delta_witness :
    0 < bridge7.alpha ∧
    lookupConf bridge7.confidence traj1.domain = some (1/2) ∧
    (post_task_store 0 bridge7 "test-task-001" traj1 true (some (9/10))
      metrics1).1 = Except.ok { episode_id := 1, confidence_delta := 1/25 } ∧
    (0 : ℚ) < 1/25 := by
  have hc : bridge7.breaker.state = CBState.closed := rfl
  have he : compute_cached bridge7.svc traj1.description =
      some (e0, svcA traj1.description) := compute_cached_svc0 traj1.description
  have heval := post_task_store_ok 0 bridge7 "test-task-001" traj1 true
    (some (9/10)) metrics1 e0 (svcA traj1.description) hc he
  have hprior : lookupConf bridge7.confidence traj1.domain = some (1/2) := rfl
  have halpha : 0 < bridge7.alpha := by norm_num [bridge7]
  have hA : freshEpisodeId bridge7.db = 1 := rfl
  have hB : (update_confidence bridge7.alpha
      (lookupConf bridge7.confidence traj1.domain) true (some (9/10))).2 =
      1/25 := by
    rw [hprior]
    norm_num [update_confidence, reward_signal, bridge7]
  rw [hA, hB] at heval
  have h := post_task_store_confidence_delta 0 bridge7 "test-task-001" traj1
    true (some (9/10)) metrics1 (1/2)
    { episode_id := 1, confidence_delta := 1/25 } _ halpha hprior heval
  refine ⟨halpha, hprior, ?_, ?_⟩
  · rw [heval]
  · exact h.1 rfl (by norm_num [reward_signal])

/-- C1 counterexample: the claim "if the outcome is failure, the returned
`confidence_delta` is non-positive" fails on a concrete call — with prior
domain confidence 1/10, learning rate 1/10, outcome failure and reward 0,
the EMA rule of §4.3 yields `confidence_delta = 9/100 > 0`. -/
theorem post_task_store_failure_positive_delta :
    (post_task_store 0 bridgeF "test-task-001" traj1 false (some 0)
      metrics1).1 = Except.ok { episode_id := 1, confidence_delta := 9/100 } ∧
    ¬ ((9 : ℚ)/100 ≤ 0) := by
  have hc : bridgeF.breaker.state = CBState.closed := rfl
  have he : compute_cached bridgeF.svc traj1.description =
      some (e0, svcA traj1.description) := compute_cached_svc0 traj1.description
  have heval := post_task_store_ok 0 bridgeF "test-task-001" traj1 false
    (some 0) metrics1 e0 (svcA traj1.description) hc he
  have hprior : lookupConf bridgeF.confidence traj1.domain = some (1/10) := rfl
  have hA : freshEpisodeId bridgeF.db = 1 := rfl
  have hB : (update_confidence bridgeF.alpha
      (lookupConf bridgeF.confidence traj1.domain) false (some 0)).2 =
      9/100 := by
    rw [hprior]
    norm_num [update_confidence, reward_signal, bridgeF]
  rw [hA, hB] at heval
  constructor
  · rw [heval]
  · norm_num


/-! ## Cascade and referential behavior of the store -/

/-- C4: deleting an episode cascades — afterwards the episode row itself
and every `episode_embeddings` and `memory_scores` row referencing its id
are gone (the declared `ON DELETE CASCADE` foreign keys, exercised by
`test_agentdb.py::test_foreign_key_constraints`). -/
theorem delete_episode_cascades (db : DB) (eid : Nat) :
    (∀ e ∈ (delete_episode db eid).episodes, e.id ≠ eid) ∧
    (∀ r ∈ (delete_episode db eid).episode_embeddings, r.episode_id ≠ eid) ∧
    (∀ r ∈ (delete_episode db eid).memory_scores, r.episode_id ≠ eid) := by
  refine ⟨?_, ?_, ?_⟩
  · intro e he
    exact of_decide_eq_true (List.mem_filter.mp he).2
  · intro r hr
    exact of_decide_eq_true (List.mem_filter.mp hr).2
  · intro r hr
    exact of_decide_eq_true (List.mem_filter.mp hr).2

/-- Witness for C4 on the concrete store of the foreign-key test. -/
theorem delete_episode_cascades_witness :
    (delete_episode db4 1).episodes = [] ∧
    (delete_episode db4 1).episode_embeddings = [] ∧
    (delete_episode db4 1).memory_scores = [] ∧
    (∀ e ∈ (delete_episode db4 1).episodes, e.id ≠ 1) ∧
    (∀ r ∈ (delete_episode db4 1).episode_embeddings, r.episode_id ≠ 1) ∧
    (∀ r ∈ (delete_episode db4 1).memory_scores, r.episode_id ≠ 1) := by
  have h := delete_episode_cascades db4 1
  exact ⟨rfl, rfl, rfl, h.1, h.2.1, h.2.2⟩

/-- C5 counterexample: a reachable store state (insert an episode, insert a
consolidated memory referencing it — the schema has no foreign key on
`source_episode_ids` — then delete the episode) in which a
`consolidated_memories` row still lists episode id 1 while no episode with
id 1 exists. -/
theorem consolidated_memory_orphaned :
    (∃ m ∈ db5.consolidated_memories, 1 ∈ m.source_episode_ids) ∧
    ∀ e ∈ db5.episodes, e.id ≠ 1 := by
  have hmem : db5.consolidated_memories = [cm5] := rfl
  have heps : db5.episodes = [] := rfl
  constructor
  · rw [hmem]
    exact ⟨cm5, List.mem_singleton.mpr rfl, List.mem_singleton.mpr rfl⟩
  · intro e he
    rw [heps] at he
    exact absurd he (List.not_mem_nil e)

/-- C5 (amended): every `ConsolidatedMemory` created by consolidation
references only episodes existing at creation time, but deleting an
episode leaves `consolidated_memories` untouched (no foreign key covers
`source_episode_ids`), so such a reference can dangle afterwards. -/
theorem consolidation_references_and_delete (b : Bridge) (sid : String)
    (db : DB) (eid : Nat) :
    (∀ m ∈ (session_end_consolidate b sid).2.db.consolidated_memories,
      m ∈ b.db.consolidated_memories ∨
      ∀ i ∈ m.source_episode_ids, ∃ e ∈ b.db.episodes, e.id = i) ∧
    (delete_episode db eid).consolidated_memories = db.consolidated_memories := by
  constructor
  · intro m hm
    simp only [session_end_consolidate] at hm
    rcases List.mem_append.mp hm with h | h
    · exact Or.inl h
    · right
      rcases List.mem_map.mp h with ⟨p, hp, hmk⟩
      intro i hi
      rw [← hmk] at hi
      simp only [mkMemory] at hi
      rcases List.mem_map.mp hi with ⟨e, he, hei⟩
      refine ⟨e, ?_, hei⟩
      have h1 := (List.mem_filter.mp he).1
      exact (List.mem_filter.mp h1).1
  · rfl

/-- Witness for C5 (amended) on a concrete consolidation run and a
concrete delete. -/
theorem consolidation_references_and_delete_witness :
    (delete_episode db5 7).consolidated_memories = db5.consolidated_memories ∧
    (∀ m ∈ (session_end_consolidate bridge8 "s").2.db.consolidated_memories,
      m ∈ bridge8.db.consolidated_memories ∨
      ∀ i ∈ m.source_episode_ids, ∃ e ∈ bridge8.db.episodes, e.id = i) := by
  have h := consolidation_references_and_delete bridge8 "s" db5 7
  exact ⟨h.2, h.1⟩

/-! ## Atomicity of `post_task_store` -/

/-- C7: `post_task_store` is atomic — on any error the store is unchanged
(no partial writes), an embedding failure additionally leaves the
embedding service untouched, an open (blocking) breaker yields
`StoreUnavailable`, and on success the episode row and its embedding row
are both present in the resulting store. -/
theorem post_task_store_atomic (t : Nat) (b : Bridge) (tid : String)
    (traj : Trajectory) (outcome : Bool) (reward : Option ℚ)
    (metrics : StoreMetrics) (res : Except StoreError StoreResult)
    (b' : Bridge)
    (h : post_task_store t b tid traj outcome reward metrics = (res, b')) :
    (∀ err, res = Except.error err → b'.db = b.db) ∧
    (res = Except.error StoreError.EmbeddingUnavailable → b'.svc = b.svc) ∧
    ((CircuitBreaker.check t b.breaker).1 = Decision.block →
      res = Except.error StoreError.StoreUnavailable) ∧
    (∀ r, res = Except.ok r →
      (∃ e ∈ b'.db.episodes, e.id = r.episode_id) ∧
      (∃ m ∈ b'.db.episode_embeddings, m.episode_id = r.episode_id)) := by
  rcases hch : CircuitBreaker.check t b.breaker with ⟨d, br'⟩
  cases d with
  | block =>
      simp only [post_task_store, hch, Prod.mk.injEq] at h
      obtain ⟨h1, h2⟩ := h
      subst h2
      refine ⟨?_, ?_, ?_, ?_⟩
      · intro err _
        rfl
      · intro _
        rfl
      · intro _
        exact h1.symm
      · intro r hr
        rw [← h1] at hr
        exact absurd hr (by simp)
  | pass =>
      cases hcc : compute_cached b.svc traj.description with
      | none =>
          simp only [post_task_store, hch, hcc, Prod.mk.injEq] at h
          obtain ⟨h1, h2⟩ := h
          subst h2
          refine ⟨?_, ?_, ?_, ?_⟩
          · intro err _
            rfl
          · intro _
            rfl
          · intro habs
            exact absurd habs (by simp)
          · intro r hr
            rw [← h1] at hr
            exact absurd hr (by simp)
      | some p =>
          rcases p with ⟨v, svc'⟩
          simp only [post_task_store, hch, hcc, Prod.mk.injEq] at h
          obtain ⟨h1, h2⟩ := h
          refine ⟨?_, ?_, ?_, ?_⟩
          · intro err herr
            rw [← h1] at herr
            exact absurd herr (by simp)
          · intro herr
            rw [← h1] at herr
            exact absurd herr (by simp)
          · intro habs
            exact absurd habs (by simp)
          · intro r hr
            rw [← h1] at hr
            have hrr : r = ⟨freshEpisodeId b.db, (update_confidence b.alpha
                (lookupConf b.confidence traj.domain) outcome reward).2⟩ := by
              injection hr with h3
              exact h3.symm
            subst hrr
            rw [← h2]
            constructor
            · refine ⟨episodeOfTrajectory t (freshEpisodeId b.db) traj outcome
                reward metrics, ?_, rfl⟩
              simp [insert_embedding, insert_episode]
            · refine ⟨⟨freshEmbeddingId b.db, freshEpisodeId b.db, v,
                "all-MiniLM-L6-v2"⟩, ?_, rfl⟩
              simp [insert_embedding, insert_episode]

/-- Witness for C7 on a concrete successful store: both rows are present
afterwards. -/
theorem post_task_store_atomic_witness :
    (∃ e ∈ (post_task_store 0 bridge7 "t7" traj1 true (some (9/10))
      metrics1).2.db.episodes, e.id = 1) ∧
    (∃ m ∈ (post_task_store 0 bridge7 "t7" traj1 true (some (9/10))
      metrics1).2.db.episode_embeddings, m.episode_id = 1) := by
  have hc : bridge7.breaker.state = CBState.closed := rfl
  have he : compute_cached bridge7.svc traj1.description =
      some (e0, svcA traj1.description) := compute_cached_svc0 traj1.description
  have heval := post_task_store_ok 0 bridge7 "t7" traj1 true (some (9/10))
    metrics1 e0 (svcA traj1.description) hc he
  have h := post_task_store_atomic 0 bridge7 "t7" traj1 true (some (9/10))
    metrics1 _ _ heval
  have h4 := h.2.2.2 _ rfl
  rw [heval]
  exact h4

/-! ## Consolidation report -/

/-- C8: `session_end_consolidate` reports `episodes_processed` equal to the
number of stored episodes of the session, and
`compression_ratio = memories_created / episodes_processed`, defined as 1
when the session has no episodes. -/
theorem session_end_consolidate_report (b : Bridge) (sid : String) :
    (session_end_consolidate b sid).1.episodes_processed =
      (sessionEpisodes b.db sid).length ∧
    ((sessionEpisodes b.db sid).length = 0 →
      (session_end_consolidate b sid).1.compression_ratio = 1) ∧
    ((sessionEpisodes b.db sid).length ≠ 0 →
      (session_end_consolidate b sid).1.compression_ratio =
        ((session_end_consolidate b sid).1.memories_created : ℚ) /
          ((session_end_consolidate b sid).1.episodes_processed : ℚ)) := by
  refine ⟨rfl, ?_, ?_⟩
  · intro h0
    simp only [session_end_consolidate]
    rw [if_pos h0]
  · intro h0
    simp only [session_end_consolidate]
    rw [if_neg h0]

/-- Witness for C8: two session-`s` episodes in one domain give
`episodes_processed = 2`, one memory, ratio 1/2. -/
theorem session_end_consolidate_report_witness :
    (session_end_consolidate bridge8 "s").1.episodes_processed = 2 ∧
    (session_end_consolidate bridge8 "s").1.memories_created = 1 ∧
    (session_end_consolidate bridge8 "s").1.compression_ratio = 1/2 := by
  have h := session_end_consolidate_report bridge8 "s"
  have hn : (sessionEpisodes bridge8.db "s").length = 2 := rfl
  have hne : (sessionEpisodes bridge8.db "s").length ≠ 0 := by
    rw [hn]
    norm_num
  have hm : (session_end_consolidate bridge8 "s").1.memories_created = 1 := rfl
  have hp : (session_end_consolidate bridge8 "s").1.episodes_processed = 2 :=
    h.1.trans hn
  have hr := h.2.2 hne
  rw [hm, hp] at hr
  rw [hr]
  refine ⟨hp, hm, ?_⟩
  norm_num

/-! ## Retrieval domain filter -/

theorem bestMatch_mem (q : Vec384) (l : List (EpisodeRow × Vec384))
    (e : EpisodeRow) (s : ℝ) (h : bestMatch q l = some (e, s)) :
    ∃ v, (e, v) ∈ l := by
  induction l with
  | nil => simp [bestMatch] at h
  | cons p rest ih =>
      rcases p with ⟨e1, v1⟩
      simp only [bestMatch] at h
      cases hb : bestMatch q rest with
      | none =>
          rw [hb] at h
          simp only [Option.some.injEq, Prod.mk.injEq] at h
          exact ⟨v1, by rw [← h.1]; exact List.mem_cons_self _ _⟩
      | some pe =>
          rcases pe with ⟨e2, s2⟩
          rw [hb] at h
          simp only [] at h
          split_ifs at h with hif
          · simp only [Option.some.injEq, Prod.mk.injEq] at h
            exact ⟨v1, by rw [← h.1]; exact List.mem_cons_self _ _⟩
          · simp only [Option.some.injEq, Prod.mk.injEq] at h
            rw [h.1, h.2] at hb
            obtain ⟨v, hv⟩ := ih hb
            exact ⟨v, List.mem_cons_of_mem _ hv⟩

theorem mem_withEmbeddings (db : DB) (p : EpisodeRow × Vec384)
    (h : p ∈ withEmbeddings db) : p.1 ∈ db.episodes := by
  unfold withEmbeddings at h
  rcases List.mem_filterMap.mp h with ⟨r, _, hmap⟩
  cases hf : db.episodes.find? (fun e => e.id == r.episode_id) with
  | none =>
      rw [hf] at hmap
      simp at hmap
  | some e =>
      rw [hf] at hmap
      simp only [Option.map_some', Option.some.injEq] at hmap
      have hmem := List.mem_of_find?_eq_some hf
      rw [← hmap]
      exact hmem

/-- C9: a retrieval with a domain filter returns a strategy whose
supporting episodes all belong to that domain, and with the filter absent
the candidate set is all stored episodes (with embeddings). -/
theorem pre_task_retrieve_domain_filter (t : Nat) (b : Bridge)
    (task_desc : String) (d : String) (k : Nat) (strat : LearnedStrategy)
    (b' : Bridge)
    (h : pre_task_retrieve t b task_desc (some d) k = (some strat, b')) :
    (∀ eid ∈ strat.supporting_episode_ids,
      ∃ e ∈ b.db.episodes, e.id = eid ∧ e.domain = some d) ∧
    candidateRows b.db none = withEmbeddings b.db := by
  refine ⟨?_, rfl⟩
  intro eid hid
  rcases hch : CircuitBreaker.check t b.breaker with ⟨dec, br'⟩
  cases dec with
  | block => simp [pre_task_retrieve, hch] at h
  | pass =>
      cases hcc : compute_cached b.svc task_desc with
      | none => simp [pre_task_retrieve, hch, hcc] at h
      | some p =>
          rcases p with ⟨q, svc'⟩
          cases hbm : bestMatch q (candidateRows b.db (some d)) with
          | none => simp [pre_task_retrieve, hch, hcc, hbm] at h
          | some pe =>
              rcases pe with ⟨e, s⟩
              by_cases hth : s < b.sim_threshold
              · simp [pre_task_retrieve, hch, hcc, hbm, hth] at h
              · simp only [pre_task_retrieve, hch, hcc, hbm, if_neg hth,
                  Prod.mk.injEq, Option.some.injEq] at h
                obtain ⟨h1, _⟩ := h
                rw [← h1] at hid
                simp only [List.mem_singleton] at hid
                obtain ⟨v, hv⟩ := bestMatch_mem q _ e s hbm
                simp only [candidateRows] at hv
                have hmem := List.mem_filter.mp hv
                have hdom : e.domain = some d :=
                  of_decide_eq_true hmem.2
                have hep : e ∈ b.db.episodes :=
                  mem_withEmbeddings b.db (e, v) hmem.1
                exact ⟨e, hep, hid.symm, hdom⟩

/-- Evaluation of a concrete retrieval over `bridge9`: the single stored
episode of domain `api-optimization` is returned with similarity 1. -/
theorem pre_task_retrieve_bridge9 :
    pre_task_retrieve 0 bridge9 "query" (some "api-optimization") 5 =
      (some strat9, { bridge9 with svc := svcA "query" }) := by
  have hcc : compute_cached bridge9.svc "query" = some (e0, svcA "query") :=
    compute_cached_svc0 "query"
  have hcand : candidateRows bridge9.db (some "api-optimization") =
      [(ep9, e0)] := rfl
  have hbm : bestMatch e0 (candidateRows bridge9.db (some "api-optimization")) =
      some (ep9, cosSim e0 e0) := by
    rw [hcand]
    simp [bestMatch]
  have hsim : cosSim e0 e0 = 1 := cosSim_self e0 l2normSq_e0_ne_zero
  have hnlt : ¬ (cosSim e0 e0 < bridge9.sim_threshold) := by
    rw [hsim]
    show ¬ ((1 : ℝ) < 1/2)
    norm_num
  simp only [pre_task_retrieve, hcc, hbm, if_neg hnlt]
  rfl

/-- Witness for C9 on the concrete retrieval over `bridge9`. -/
theorem pre_task_retrieve_domain_filter_witness :
    pre_task_retrieve 0 bridge9 "query" (some "api-optimization") 5 =
      (some strat9, { bridge9 with svc := svcA "query" }) ∧
    (∀ eid ∈ strat9.supporting_episode_ids,
      ∃ e ∈ bridge9.db.episodes, e.id = eid ∧
        e.domain = some "api-optimization") := by
  have h := pre_task_retrieve_domain_filter 0 bridge9 "query"
    "api-optimization" 5 strat9 _ pre_task_retrieve_bridge9
  exact ⟨pre_task_retrieve_bridge9, h.1⟩

/-! ## Idempotence of schema initialization -/

theorem createTable_preserves (d : RawDB) (n : String)
    (p : String × List String) (hp : p ∈ d.tables) :
    p ∈ (createTableIfNotExists d n).tables := by
  unfold createTableIfNotExists
  split
  · exact hp
  · exact List.mem_append_left _ hp

theorem createTable_hasTable (d : RawDB) (n : String) :
    hasTable (createTableIfNotExists d n) n = true := by
  unfold createTableIfNotExists
  split
  · assumption
  · unfold hasTable
    simp [List.any_append]

theorem createTable_mono (d : RawDB) (n m : String)
    (h : hasTable d m = true) :
    hasTable (createTableIfNotExists d n) m = true := by
  unfold createTableIfNotExists
  split
  · exact h
  · unfold hasTable at h ⊢
    simp [List.any_append, h]

theorem createTable_noop (d : RawDB) (n : String) (h : hasTable d n = true) :
    createTableIfNotExists d n = d := by
  unfold createTableIfNotExists
  rw [if_pos h]

theorem createTable_indexes (d : RawDB) (n : String) :
    (createTableIfNotExists d n).indexes = d.indexes := by
  unfold createTableIfNotExists
  split <;> rfl

theorem createIndex_preserves (d : RawDB) (n m : String)
    (hm : m ∈ d.indexes) : m ∈ (createIndexIfNotExists d n).indexes := by
  unfold createIndexIfNotExists
  split
  · exact hm
  · exact List.mem_append_left _ hm

theorem createIndex_contains (d : RawDB) (n : String) :
    (createIndexIfNotExists d n).indexes.contains n = true := by
  unfold createIndexIfNotExists
  split
  · assumption
  · simp

theorem createIndex_mono (d : RawDB) (n m : String)
    (h : d.indexes.contains m = true) :
    (createIndexIfNotExists d n).indexes.contains m = true := by
  unfold createIndexIfNotExists
  split
  · exact h
  · simp_all

theorem createIndex_noop (d : RawDB) (n : String)
    (h : d.indexes.contains n = true) : createIndexIfNotExists d n = d := by
  unfold createIndexIfNotExists
  rw [if_pos h]

theorem createIndex_tables (d : RawDB) (n : String) :
    (createIndexIfNotExists d n).tables = d.tables := by
  unfold createIndexIfNotExists
  split <;> rfl

theorem foldl_createTable_preserves (names : List String) (d : RawDB)
    (p : String × List String) (hp : p ∈ d.tables) :
    p ∈ (names.foldl createTableIfNotExists d).tables := by
  induction names generalizing d with
  | nil => exact hp
  | cons a l ih => exact ih _ (createTable_preserves d a p hp)

theorem foldl_createTable_mono (names : List String) (d : RawDB) (m : String)
    (h : hasTable d m = true) :
    hasTable (names.foldl createTableIfNotExists d) m = true := by
  induction names generalizing d with
  | nil => exact h
  | cons a l ih => exact ih _ (createTable_mono d a m h)

theorem foldl_createTable_hasTable (names : List String) (d : RawDB)
    (m : String) (hm : m ∈ names) :
    hasTable (names.foldl createTableIfNotExists d) m = true := by
  induction names generalizing d with
  | nil => cases hm
  | cons a l ih =>
      rcases List.mem_cons.mp hm with rfl | h
      · exact foldl_createTable_mono l _ m (createTable_hasTable d m)
      · exact ih _ h

theorem foldl_createTable_noop (names : List String) (d : RawDB)
    (h : ∀ m ∈ names, hasTable d m = true) :
    names.foldl createTableIfNotExists d = d := by
  induction names with
  | nil => rfl
  | cons a l ih =>
      rw [List.foldl_cons, createTable_noop d a (h a (List.mem_cons_self a l))]
      exact ih (fun m hm => h m (List.mem_cons_of_mem a hm))

theorem foldl_createTable_indexes (names : List String) (d : RawDB) :
    (names.foldl createTableIfNotExists d).indexes = d.indexes := by
  induction names generalizing d with
  | nil => rfl
  | cons a l ih =>
      rw [List.foldl_cons, ih (createTableIfNotExists d a),
        createTable_indexes]

theorem foldl_createIndex_preserves (names : List String) (d : RawDB)
    (m : String) (hm : m ∈ d.indexes) :
    m ∈ (names.foldl createIndexIfNotExists d).indexes := by
  induction names generalizing d with
  | nil => exact hm
  | cons a l ih => exact ih _ (createIndex_preserves d a m hm)

theorem foldl_createIndex_mono (names : List String) (d : RawDB) (m : String)
    (h : d.indexes.contains m = true) :
    (names.foldl createIndexIfNotExists d).indexes.contains m = true := by
  induction names generalizing d with
  | nil => exact h
  | cons a l ih => exact ih _ (createIndex_mono d a m h)

theorem foldl_createIndex_contains (names : List String) (d : RawDB)
    (m : String) (hm : m ∈ names) :
    (names.foldl createIndexIfNotExists d).indexes.contains m = true := by
  induction names generalizing d with
  | nil => cases hm
  | cons a l ih =>
      rcases List.mem_cons.mp hm with rfl | h
      · exact foldl_createIndex_mono l _ m (createIndex_contains d m)
      · exact ih _ h

theorem foldl_createIndex_noop (names : List String) (d : RawDB)
    (h : ∀ m ∈ names, d.indexes.contains m = true) :
    names.foldl createIndexIfNotExists d = d := by
  induction names with
  | nil => rfl
  | cons a l ih =>
      rw [List.foldl_cons, createIndex_noop d a (h a (List.mem_cons_self a l))]
      exact ih (fun m hm => h m (List.mem_cons_of_mem a hm))

theorem foldl_createIndex_tables (names : List String) (d : RawDB) :
    (names.foldl createIndexIfNotExists d).tables = d.tables := by
  induction names generalizing d with
  | nil => rfl
  | cons a l ih =>
      rw [List.foldl_cons, ih (createIndexIfNotExists d a),
        createIndex_tables]

theorem hasTable_create_indexes (x : RawDB) (m : String) :
    hasTable (create_indexes x) m = hasTable x m := by
  unfold hasTable create_indexes
  rw [foldl_createIndex_tables]

/-- C10: database initialization is idempotent — running the full
`initialize_schema`/`create_indexes` pass a second time leaves the database
unchanged, and an initialization run preserves every existing table (with
its rows) and every existing index (`IF NOT EXISTS` everywhere). -/
theorem initialization_idempotent (d : RawDB) :
    initAll (initAll d) = initAll d ∧
    (∀ p ∈ d.tables, p ∈ (initAll d).tables) ∧
    (∀ n ∈ d.indexes, n ∈ (initAll d).indexes) := by
  refine ⟨?_, ?_, ?_⟩
  · unfold initAll
    have h1 : ∀ m ∈ tableNames,
        hasTable (create_indexes (initialize_schema d)) m = true := by
      intro m hm
      rw [hasTable_create_indexes]
      exact foldl_createTable_hasTable tableNames d m hm
    have h2 : initialize_schema (create_indexes (initialize_schema d)) =
        create_indexes (initialize_schema d) :=
      foldl_createTable_noop tableNames _ h1
    rw [h2]
    have h3 : ∀ m ∈ indexNames,
        (create_indexes (initialize_schema d)).indexes.contains m = true := by
      intro m hm
      exact foldl_createIndex_contains indexNames _ m hm
    exact foldl_createIndex_noop indexNames _ h3
  · intro p hp
    unfold initAll
    have h1 : p ∈ (initialize_schema d).tables :=
      foldl_createTable_preserves tableNames d p hp
    unfold create_indexes
    rw [foldl_createIndex_tables]
    exact h1
  · intro n hn
    unfold initAll
    have h1 : n ∈ (initialize_schema d).indexes := by
      unfold initialize_schema
      rw [foldl_createTable_indexes]
      exact hn
    exact foldl_createIndex_preserves indexNames _ n h1

/-- Witness for C10 on a database already holding an `episodes` table with
one row. -/
theorem initialization_idempotent_witness :
    initAll (initAll rawW) = initAll rawW ∧
    ("episodes", ["row1"]) ∈ (initAll rawW).tables := by
  have h := initialization_idempotent rawW
  refine ⟨h.1, h.2.1 _ ?_⟩
  show ("episodes", ["row1"]) ∈ [("episodes", ["row1"])]
  exact List.mem_singleton.mpr rfl
